import Mathlib

/-!
Shallow embedding of `tcx_to_csv.py`: the TCX to CSV conversion pipeline
(ascent calculation, pace and elapsed-time formatting, per-lap records,
summary aggregation, the single-file driver and the batch driver).
Python floats are modelled as rationals; Python `int(x)` truncation,
floor division and modulo are modelled explicitly.
-/

namespace TcxToCsv

/-- Python `int(x)` on a float: truncation toward zero. -/
def pyInt (q : ℚ) : ℤ := if 0 ≤ q then ⌊q⌋ else ⌈q⌉

/-- Python `x % n` on floats: `x - n * (x // n)`; for `n > 0` the result is
in `[0, n)`. -/
def pyMod (q n : ℚ) : ℚ := q - n * (⌊q / n⌋ : ℤ)

/-- Round half to even to an integer, as CPython fixed-point float
formatting does. -/
def roundHalfEven (q : ℚ) : ℤ :=
  let f := ⌊q⌋
  let r := q - (f : ℚ)
  if r < 1/2 then f
  else if (1/2 : ℚ) < r then f + 1
  else if f % 2 = 0 then f else f + 1

/-- Zero-pad a natural number to two digits. -/
def natPad2 (n : ℕ) : String := if n < 10 then "0" ++ toString n else toString n

/-- Python fixed-point formatting with two decimals, as in the per-lap
distance and ascent renderings of `parse_tcx_to_csv`. -/
def fmt2 (q : ℚ) : String :=
  let n := roundHalfEven (100 * q)
  if n < 0 then "-" ++ toString (n.natAbs / 100) ++ "." ++ natPad2 (n.natAbs % 100)
  else toString (n.toNat / 100) ++ "." ++ natPad2 (n.toNat % 100)

/-- The rational value a reader parses back from the 2-decimal rendering
(models the `float(row[...])` round trip in the summary aggregation). -/
def round2val (q : ℚ) : ℚ := (roundHalfEven (100 * q) : ℚ) / 100

/-- Python width-4 one-decimal fixed-point formatting, for a nonnegative
value (the seconds part of elapsed-time strings, always in `[0, 60)`). -/
def fmt04_1 (q : ℚ) : String :=
  let n := (roundHalfEven (10 * q)).toNat
  natPad2 (n / 10) ++ "." ++ toString (n % 10)

/-- Python zero-padded width-2 integer formatting. -/
def zfill2 (n : ℤ) : String :=
  if 0 ≤ n ∧ n < 10 then "0" ++ toString n else toString n

/-- `format_seconds_to_time`: seconds to a minutes-and-seconds string with
one decimal on the seconds.  Minutes are `int(seconds // 60)`, the seconds
part is `seconds % 60` rendered width 4 with 1 decimal. -/
def format_seconds_to_time (s : ℚ) : String :=
  toString ⌊s / 60⌋ ++ ":" ++ fmt04_1 (pyMod s 60)

/-- `format_seconds_to_pace`: seconds-per-km to a minutes-and-seconds
string; a zero input renders as the empty string.  Minutes are
`int(seconds // 60)`; the seconds component is `int(seconds % 60)`,
Python truncation toward zero. -/
def format_seconds_to_pace (s : ℚ) : String :=
  if s = 0 then ""
  else toString ⌊s / 60⌋ ++ ":" ++ zfill2 (pyInt (pyMod s 60))

/-- A trackpoint: only the optional altitude matters to the pipeline. -/
structure Trackpoint where
  altitude : Option ℚ
deriving DecidableEq

/-- The loop of `calculate_ascent`: running total plus the
`previous_altitude` cursor, over the trackpoint list in order.
Trackpoints without altitude neither reset nor update the cursor. -/
def ascentLoop : List Trackpoint → Option ℚ → ℚ → ℚ
  | [], _, total => total
  | tp :: rest, prev, total =>
    match tp.altitude with
    | none => ascentLoop rest prev total
    | some a =>
      match prev with
      | none => ascentLoop rest (some a) total
      | some p =>
        if p < a then ascentLoop rest (some a) (total + (a - p))
        else ascentLoop rest (some a) total

/-- `calculate_ascent`: 0 when the lap has fewer than two trackpoints,
otherwise the cursor scan of `ascentLoop` started unset at total 0. -/
def calculate_ascent (tps : List Trackpoint) : ℚ :=
  if tps.length < 2 then 0 else ascentLoop tps none 0

/-- Sum of the strictly positive differences between consecutive elements
of a list (the specification-side description of ascent over the present
altitudes). -/
def posDeltaSum : List ℚ → ℚ
  | a :: b :: rest => (if a < b then b - a else 0) + posDeltaSum (b :: rest)
  | _ => 0

/-- The altitudes actually present in a trackpoint sequence, in order. -/
def presentAltitudes (tps : List Trackpoint) : List ℚ :=
  tps.filterMap (fun tp => tp.altitude)

/-- A lap as read from a document before the required-field checks: the
three required children may be absent (their lookup returns no element),
heart rates and altitudes are genuinely optional. -/
structure RawLap where
  totalTimeSeconds : Option ℚ
  distanceMeters : Option ℚ
  calories : Option ℤ
  avgHr : Option ℕ
  maxHr : Option ℕ
  trackpoints : List Trackpoint
deriving DecidableEq

/-- An input document: either the XML does not parse at all, or it parses
into the (possibly empty) list of namespace-matched laps. -/
inductive TcxDoc where
  | malformed : TcxDoc
  | parsed : List RawLap → TcxDoc
deriving DecidableEq

/-- The failure modes of one file's conversion.  In the source these are,
respectively: `ET.ParseError`, the early return after printing that no
laps were found, and the `AttributeError` raised by reading `.text` of a
missing required child (caught by the generic `except`). -/
inductive ConvError where
  | malformedInput : ConvError
  | noLapsFound : ConvError
  | missingRequiredField : ConvError
deriving DecidableEq

/-- A lap after the required fields have been read successfully. -/
structure Lap where
  totalTimeSeconds : ℚ
  distanceMeters : ℚ
  calories : ℤ
  avgHr : Option ℕ
  maxHr : Option ℕ
  trackpoints : List Trackpoint
deriving DecidableEq

/-- Reading one lap's fields (lines 36-45 of the source): any of the three
required children missing raises, aborting the whole conversion. -/
def readLap (r : RawLap) : Except ConvError Lap :=
  match r.totalTimeSeconds, r.distanceMeters, r.calories with
  | some t, some d, some c => .ok ⟨t, d, c, r.avgHr, r.maxHr, r.trackpoints⟩
  | _, _, _ => .error .missingRequiredField

/-- The numeric data carried per lap through the loop of
`parse_tcx_to_csv`: 1-based index, the lap's own values, the computed
ascent and the running cumulative time after this lap. -/
structure LapRecord where
  index : ℕ
  totalTime : ℚ
  distanceKm : ℚ
  calories : ℤ
  avgHr : Option ℕ
  maxHr : Option ℕ
  ascent : ℚ
  cumulative : ℚ
deriving DecidableEq

/-- The lap loop: per-lap records with the cumulative-time accumulator
`cum` and the 1-based enumeration counter `i` threaded through. -/
def buildRecordsAux (cum : ℚ) (i : ℕ) : List Lap → List LapRecord
  | [] => []
  | lap :: rest =>
    let cum' := cum + lap.totalTimeSeconds
    { index := i, totalTime := lap.totalTimeSeconds,
      distanceKm := lap.distanceMeters / 1000, calories := lap.calories,
      avgHr := lap.avgHr, maxHr := lap.maxHr,
      ascent := calculate_ascent lap.trackpoints, cumulative := cum' }
      :: buildRecordsAux cum' (i + 1) rest

/-- All lap records of an activity, accumulator starting at 0, enumeration
starting at 1. -/
def buildRecords (laps : List Lap) : List LapRecord := buildRecordsAux 0 1 laps

/-- One output row: the fixed column set of the vendor schema, every
column a string that is always present (possibly empty). -/
structure OutputRow where
  laps : String
  time : String
  cumulativeTime : String
  distancekm : String
  avgPace : String
  avgGap : String
  avgHr : String
  maxHr : String
  totalAscent : String
  totalDescent : String
  avgPower : String
  avgWkg : String
  maxPower : String
  maxWkg : String
  avgRunCadence : String
  avgGroundContactTime : String
  avgGctBalance : String
  avgStrideLength : String
  avgVerticalOscillation : String
  avgVerticalRatio : String
  caloriesC : String
  avgTemperature : String
  bestPace : String
  maxRunCadence : String
  movingTime : String
  avgMovingPace : String
  avgStepSpeedLoss : String
  avgStepSpeedLossPercent : String
deriving DecidableEq

/-- Python `str(x)` where `x` is an optional heart-rate integer: the empty
string when the element was absent. -/
def optHrStr : Option ℕ → String
  | none => ""
  | some n => toString n

/-- The per-lap row dictionary (lines 62-91 of the source). -/
def lapRow (r : LapRecord) : OutputRow :=
  let timeStr := format_seconds_to_time r.totalTime
  let paceSeconds := if 0 < r.distanceKm then r.totalTime / r.distanceKm else 0
  let paceStr := format_seconds_to_pace paceSeconds
  { laps := toString r.index
    time := timeStr
    cumulativeTime := format_seconds_to_time r.cumulative
    distancekm := fmt2 r.distanceKm
    avgPace := paceStr
    avgGap := paceStr
    avgHr := optHrStr r.avgHr
    maxHr := optHrStr r.maxHr
    totalAscent := if 0 < r.ascent then fmt2 r.ascent else ""
    totalDescent := ""
    avgPower := ""
    avgWkg := ""
    maxPower := ""
    maxWkg := ""
    avgRunCadence := ""
    avgGroundContactTime := ""
    avgGctBalance := ""
    avgStrideLength := ""
    avgVerticalOscillation := ""
    avgVerticalRatio := ""
    caloriesC := toString r.calories
    avgTemperature := ""
    bestPace := paceStr
    maxRunCadence := ""
    movingTime := timeStr
    avgMovingPace := paceStr
    avgStepSpeedLoss := ""
    avgStepSpeedLossPercent := "" }

/-- The summary row (lines 95-141 of the source).  The source re-parses
strings out of the lap rows; parsing back the 2-decimal renderings gives
`round2val`, parsing back `str(n)` gives `n`, and a blank ascent (the
ascent was not strictly positive) is excluded from the ascent sum. -/
def summaryRow (records : List LapRecord) (cumulative : ℚ) : OutputRow :=
  let totalDistance := (records.map (fun r => round2val r.distanceKm)).sum
  let totalCalories := (records.map (fun r => r.calories)).sum
  let totalAscent :=
    ((records.filter (fun r => 0 < r.ascent)).map (fun r => round2val r.ascent)).sum
  let avgPaceSeconds := if 0 < totalDistance then cumulative / totalDistance else 0
  let avgPaceStr := format_seconds_to_pace avgPaceSeconds
  let hrValues := records.filterMap (fun r => r.avgHr)
  let avgHrStr :=
    match hrValues with
    | [] => ""
    | _ :: _ => toString (hrValues.sum / hrValues.length)
  let maxHrStr :=
    match records.filterMap (fun r => r.maxHr) with
    | [] => ""
    | x :: xs => toString (xs.foldl max x)
  { laps := "Summary"
    time := format_seconds_to_time cumulative
    cumulativeTime := format_seconds_to_time cumulative
    distancekm := fmt2 totalDistance
    avgPace := avgPaceStr
    avgGap := avgPaceStr
    avgHr := avgHrStr
    maxHr := maxHrStr
    totalAscent := if 0 < totalAscent then fmt2 totalAscent else ""
    totalDescent := ""
    avgPower := ""
    avgWkg := ""
    maxPower := ""
    maxWkg := ""
    avgRunCadence := ""
    avgGroundContactTime := ""
    avgGctBalance := ""
    avgStrideLength := ""
    avgVerticalOscillation := ""
    avgVerticalRatio := ""
    caloriesC := toString totalCalories
    avgTemperature := ""
    bestPace := ""
    maxRunCadence := ""
    movingTime := format_seconds_to_time cumulative
    avgMovingPace := avgPaceStr
    avgStepSpeedLoss := ""
    avgStepSpeedLossPercent := "" }

/-- The conversion pipeline of one document: the body of the `try` block
of `parse_tcx_to_csv`, with the three failure modes made explicit.  On
success the result is the full row set: one row per lap in source order,
then the summary row. -/
def convertDoc : TcxDoc → Except ConvError (List OutputRow)
  | .malformed => .error .malformedInput
  | .parsed rawLaps =>
    if rawLaps.isEmpty then .error .noLapsFound
    else
      match rawLaps.mapM readLap with
      | .error e => .error e
      | .ok laps =>
        let records := buildRecords laps
        let cumulative := (laps.map (fun l => l.totalTimeSeconds)).sum
        .ok (records.map lapRow ++ [summaryRow records cumulative])

/-- `parse_tcx_to_csv` as its callers observe it: every pipeline error is
caught inside the function (printed and discarded), so the call always
returns normally; a file is written exactly when the pipeline succeeded,
and then it holds the complete row set. -/
def parse_tcx_to_csv (doc : TcxDoc) : Option (List OutputRow) :=
  (convertDoc doc).toOption

/-- Outcome of the single-file branch of `main`: the process exit code and
what was written at the output path (if anything). -/
structure SingleRunResult where
  exitCode : ℕ
  written : Option (List OutputRow)
deriving DecidableEq

/-- The single-file branch of `main` (lines 217-237): a missing input path
exits 1 before anything is written; otherwise `parse_tcx_to_csv` runs,
never raises, and `main` falls through with exit code 0. -/
def runSingleFile (input : Option TcxDoc) : SingleRunResult :=
  match input with
  | none => ⟨1, none⟩
  | some doc => ⟨0, parse_tcx_to_csv doc⟩

/-- Python `str.lower` restricted to what filenames need: character-wise
lowercasing. -/
def pyLower (s : String) : String := ⟨s.data.map Char.toLower⟩

/-- Python `str.endswith`. -/
def pyEndsWith (s suffix : String) : Bool := suffix.data.isSuffixOf s.data

/-- Python `str.replace` on character lists: leftmost non-overlapping
replacement of every occurrence of the (nonempty) pattern `p :: ps`. -/
def pyReplaceAux (p : Char) (ps rep : List Char) : ℕ → List Char → List Char
  | 0, s => s
  | _ + 1, [] => []
  | fuel + 1, c :: rest =>
    if (p :: ps).isPrefixOf (c :: rest) then
      rep ++ pyReplaceAux p ps rep fuel (rest.drop ps.length)
    else c :: pyReplaceAux p ps rep fuel rest

/-- Python `str.replace` (for the nonempty patterns the converter uses).
The fuel starts at the string length, one unit per consumed character, so
it never runs out. -/
def pyReplace (s pat rep : String) : String :=
  match pat.data with
  | [] => s
  | p :: ps => ⟨pyReplaceAux p ps rep.data s.data.length s.data⟩

/-- Code-point comparison of strings, as Python's `sorted` compares. -/
def charListLe : List Char → List Char → Bool
  | [], _ => true
  | _ :: _, [] => false
  | a :: as, b :: bs =>
    if a.toNat < b.toNat then true
    else if b.toNat < a.toNat then false
    else charListLe as bs

/-- Insert one named file into a name-sorted list (stable). -/
def insertSorted (x : String × TcxDoc) : List (String × TcxDoc) → List (String × TcxDoc)
  | [] => [x]
  | y :: ys => if charListLe x.1.data y.1.data then x :: y :: ys else y :: insertSorted x ys

/-- Python `sorted` on the file listing (insertion sort by name). -/
def sortFiles : List (String × TcxDoc) → List (String × TcxDoc)
  | [] => []
  | x :: xs => insertSorted x (sortFiles xs)

/-- The contents of the output directory: file name to written rows. -/
abbrev CsvFS := List (String × List OutputRow)

/-- Existence check against the output directory. -/
def fileExists (fs : CsvFS) (name : String) : Bool := (fs.lookup name).isSome

/-- The output filename derived from an input filename (line 275 of the
source: replace every occurrence of the input extension). -/
def csvNameOf (name : String) : String := pyReplace name ".tcx" ".csv"

/-- The state threaded through the batch loop: the output directory, the
two printed counters, and (for the statements below) the names the run
skipped and the names it actually wrote output for. -/
structure BatchState where
  csv : CsvFS
  converted : ℕ
  skipped : ℕ
  skippedNames : List String
  writtenNames : List String
deriving DecidableEq

/-- One iteration of the batch loop (lines 271-291 of the source).  If the
output path exists the file is skipped.  Otherwise `parse_tcx_to_csv`
runs; it catches every pipeline error internally and returns normally, so
the `except` branch of the batch loop is unreachable and `converted_count`
is incremented whether or not the pipeline succeeded; the output file is
written only on success. -/
def batchStep (st : BatchState) (file : String × TcxDoc) : BatchState :=
  if fileExists st.csv (csvNameOf file.1) then
    { st with skipped := st.skipped + 1,
              skippedNames := st.skippedNames ++ [file.1] }
  else
    match parse_tcx_to_csv file.2 with
    | some rows =>
      { st with csv := (csvNameOf file.1, rows) :: st.csv,
                converted := st.converted + 1,
                writtenNames := st.writtenNames ++ [file.1] }
    | none =>
      { st with converted := st.converted + 1 }

/-- The eligible input files: names whose lowercasing ends in the input
extension, in Python `sorted` order. -/
def eligibleFiles (tcx : List (String × TcxDoc)) : List (String × TcxDoc) :=
  sortFiles (tcx.filter (fun f => pyEndsWith (pyLower f.1) ".tcx"))

/-- `batch_convert_tcx_files`: fold the batch loop over the eligible
files, starting from the current output directory and zero counters. -/
def batch_convert_tcx_files (tcx : List (String × TcxDoc)) (csv : CsvFS) : BatchState :=
  (eligibleFiles tcx).foldl batchStep ⟨csv, 0, 0, [], []⟩

/-- Running sums of a list: at index `k`, the sum of the first `k + 1`
elements.  This is the specification-side description of cumulative
time. -/
def prefixSums (l : List ℚ) : List ℚ :=
  (List.range l.length).map (fun k => ((l.take (k + 1)).sum))

/-- Prepend the cursor (when set) to a list of altitudes. -/
def optCons : Option ℚ → List ℚ → List ℚ
  | none, l => l
  | some a, l => a :: l

lemma ascentLoop_eq (tps : List Trackpoint) :
    ∀ (prev : Option ℚ) (total : ℚ),
      ascentLoop tps prev total = total + posDeltaSum (optCons prev (presentAltitudes tps)) := by
  induction tps with
  | nil =>
    intro prev total
    cases prev <;> simp [ascentLoop, optCons, posDeltaSum, presentAltitudes]
  | cons tp rest ih =>
    intro prev total
    cases htp : tp.altitude with
    | none =>
      cases prev <;>
        simp [ascentLoop, htp, optCons, presentAltitudes, List.filterMap_cons, ih]
    | some a =>
      cases prev with
      | none =>
        simp [ascentLoop, htp, optCons, presentAltitudes, List.filterMap_cons, ih]
      | some p =>
        by_cases hpa : p < a
        · have h1 : (if p < a then a - p else 0) = a - p := if_pos hpa
          simp [ascentLoop, htp, hpa, optCons, presentAltitudes, List.filterMap_cons, ih,
            posDeltaSum, h1]
          ring
        · have h1 : (if p < a then a - p else 0) = 0 := if_neg hpa
          simp [ascentLoop, htp, hpa, optCons, presentAltitudes, List.filterMap_cons, ih,
            posDeltaSum, h1]

lemma posDeltaSum_short {l : List ℚ} (h : l.length < 2) : posDeltaSum l = 0 := by
  match l, h with
  | [], _ => rfl
  | [_], _ => rfl

lemma posDeltaSum_chain_lt (rest : List ℚ) :
    ∀ a : ℚ, List.Chain' (· < ·) (a :: rest) →
      posDeltaSum (a :: rest) = (a :: rest).getLast (List.cons_ne_nil a rest) - a := by
  induction rest with
  | nil => intro a _; simp [posDeltaSum]
  | cons b rest ih =>
    intro a hchain
    rw [List.chain'_cons] at hchain
    have hlast : (a :: b :: rest).getLast (List.cons_ne_nil a (b :: rest))
        = (b :: rest).getLast (List.cons_ne_nil b rest) := by
      simp [List.getLast]
    rw [hlast]
    have : posDeltaSum (a :: b :: rest) = (b - a) + posDeltaSum (b :: rest) := by
      simp [posDeltaSum, if_pos hchain.1]
    rw [this, ih b hchain.2]
    ring

lemma posDeltaSum_chain_ge (l : List ℚ) (h : List.Chain' (· ≥ ·) l) :
    posDeltaSum l = 0 := by
  induction l with
  | nil => rfl
  | cons a rest ih =>
    cases rest with
    | nil => rfl
    | cons b rest2 =>
      rw [List.chain'_cons] at h
      have hab : ¬ a < b := not_lt.mpr h.1
      have : posDeltaSum (a :: b :: rest2) = 0 + posDeltaSum (b :: rest2) := by
        simp [posDeltaSum, if_neg hab]
      rw [this, ih h.2, add_zero]

lemma calculate_ascent_eq (tps : List Trackpoint) :
    calculate_ascent tps = posDeltaSum (presentAltitudes tps) := by
  unfold calculate_ascent
  by_cases h : tps.length < 2
  · rw [if_pos h]
    have hlen : (presentAltitudes tps).length < 2 :=
      lt_of_le_of_lt (List.length_filterMap_le _ _) h
    exact (posDeltaSum_short hlen).symm
  · rw [if_neg h, ascentLoop_eq tps none 0]
    simp [optCons]

/-- C5: for every trackpoint sequence, the computed ascent is the sum of
the strictly positive differences between consecutive present-altitude
samples (absent samples neither reset nor count); hence strictly
increasing present altitudes give last-minus-first, non-increasing ones
give 0, and fewer than two present altitudes give 0. -/
theorem C5_ascent_spec (tps : List Trackpoint) :
    calculate_ascent tps = posDeltaSum (presentAltitudes tps)
    ∧ (∀ (a : ℚ) (rest : List ℚ), presentAltitudes tps = a :: rest →
        List.Chain' (· < ·) (a :: rest) →
        calculate_ascent tps = (a :: rest).getLast (List.cons_ne_nil a rest) - a)
    ∧ (List.Chain' (· ≥ ·) (presentAltitudes tps) → calculate_ascent tps = 0)
    ∧ ((presentAltitudes tps).length < 2 → calculate_ascent tps = 0) := by
  refine ⟨calculate_ascent_eq tps, ?_, ?_, ?_⟩
  · intro a rest hpres hchain
    rw [calculate_ascent_eq tps, hpres]
    exact posDeltaSum_chain_lt rest a hchain
  · intro hchain
    rw [calculate_ascent_eq tps]
    exact posDeltaSum_chain_ge _ hchain
  · intro hlen
    rw [calculate_ascent_eq tps]
    exact posDeltaSum_short hlen

/-- Witness for C5: a lap with strictly increasing present altitudes
100, 103, 110 (one absent sample in between) has ascent 10. -/
theorem C5_ascent_spec_witness :
    calculate_ascent [⟨some 100⟩, ⟨some 103⟩, ⟨none⟩, ⟨some 110⟩] = 10 :=
  ((C5_ascent_spec [⟨some 100⟩, ⟨some 103⟩, ⟨none⟩, ⟨some 110⟩]).2.1 100 [103, 110]
    (by simp [presentAltitudes])
    (by norm_num [List.chain'_cons, List.chain'_singleton])).trans
    (by norm_num [List.getLast])

lemma buildAux_map_cum (laps : List Lap) :
    ∀ (cum : ℚ) (i : ℕ),
      (buildRecordsAux cum i laps).map (fun r => r.cumulative)
        = (List.range laps.length).map
            (fun k => cum + (((laps.map (fun l => l.totalTimeSeconds)).take (k + 1)).sum)) := by
  induction laps with
  | nil => intro cum i; simp [buildRecordsAux]
  | cons lap rest ih =>
    intro cum i
    simp only [buildRecordsAux, List.map_cons, List.length_cons, List.range_succ_eq_map,
      List.map_map, ih]
    refine List.cons_eq_cons.mpr ⟨by simp, ?_⟩
    refine List.map_congr_left (fun k _ => ?_)
    simp [Function.comp, List.take_succ_cons]
    ring

lemma buildAux_map_index (laps : List Lap) :
    ∀ (cum : ℚ) (i : ℕ),
      (buildRecordsAux cum i laps).map (fun r => r.index) = List.range' i laps.length := by
  induction laps with
  | nil => intro cum i; simp [buildRecordsAux]
  | cons lap rest ih =>
    intro cum i
    simp only [buildRecordsAux, List.map_cons, ih, List.length_cons]
    rfl

lemma buildAux_chain (laps : List Lap) :
    ∀ (cum : ℚ) (i : ℕ), (∀ l ∈ laps, 0 ≤ l.totalTimeSeconds) →
      List.Chain' (· ≤ ·) ((buildRecordsAux cum i laps).map (fun r => r.cumulative)) := by
  induction laps with
  | nil => intro cum i _; simp [buildRecordsAux]
  | cons lap rest ih =>
    intro cum i h
    cases rest with
    | nil => simp [buildRecordsAux]
    | cons lap2 rest2 =>
      have hih := ih (cum + lap.totalTimeSeconds) (i + 1)
        (fun l hl => h l (List.mem_cons_of_mem _ hl))
      simp only [buildRecordsAux, List.map_cons] at hih ⊢
      rw [List.chain'_cons]
      refine ⟨?_, hih⟩
      have h2 : 0 ≤ lap2.totalTimeSeconds := h lap2 (by simp)
      simp
      linarith

/-- C7: the cumulative times across an n-lap sequence are exactly the
running sums of the per-lap total times, they are monotonically
non-decreasing when every lap time is nonnegative, and the emitted lap
indices are 1-based, consecutive and in source order. -/
theorem C7_cumulative_time (laps : List Lap)
    (h : ∀ l ∈ laps, 0 ≤ l.totalTimeSeconds) :
    (buildRecords laps).map (fun r => r.cumulative)
      = prefixSums (laps.map (fun l => l.totalTimeSeconds))
    ∧ List.Chain' (· ≤ ·) ((buildRecords laps).map (fun r => r.cumulative))
    ∧ (buildRecords laps).map (fun r => r.index) = List.range' 1 laps.length := by
  refine ⟨?_, buildAux_chain laps 0 1 h, buildAux_map_index laps 0 1⟩
  rw [buildRecords, buildAux_map_cum]
  simp [prefixSums]

/-- Witness for C7: two laps of 300 s and 60 s give cumulative times
300, 360 and indices 1, 2. -/
theorem C7_cumulative_time_witness :
    (buildRecords [⟨300, 1000, 80, some 150, some 160, []⟩, ⟨60, 2000, 10, none, none, []⟩]).map
        (fun r => r.cumulative) = [300, 360]
    ∧ (buildRecords [⟨300, 1000, 80, some 150, some 160, []⟩, ⟨60, 2000, 10, none, none, []⟩]).map
        (fun r => r.index) = [1, 2] := by
  have h := C7_cumulative_time
    [⟨300, 1000, 80, some 150, some 160, []⟩, ⟨60, 2000, 10, none, none, []⟩]
    (by
      intro l hl
      rcases List.mem_cons.mp hl with h1 | h1
      · subst h1; norm_num
      · rcases List.mem_cons.mp h1 with h2 | h2
        · subst h2; norm_num
        · simp at h2)
  refine ⟨h.1.trans ?_, h.2.2.trans (by decide)⟩
  norm_num [prefixSums, List.range_succ, List.take_succ_cons]

/-- C8: the summary `avg_hr` is the arithmetic mean of the present lap
values only, truncated downward to an integer (natural-number division of
the sum by the count, which is the floor of the rational mean), and the
empty string when no lap has a value; `max_hr` is the maximum of the
present values, empty when none are present. -/
theorem C8_summary_hr (records : List LapRecord) (cum : ℚ) :
    (records.filterMap (fun r => r.avgHr) = [] → (summaryRow records cum).avgHr = "")
    ∧ (records.filterMap (fun r => r.avgHr) ≠ [] →
        (summaryRow records cum).avgHr
          = toString (⌊(Nat.cast ((records.filterMap (fun r => r.avgHr)).sum)
              / Nat.cast ((records.filterMap (fun r => r.avgHr)).length) : ℚ)⌋₊))
    ∧ (records.filterMap (fun r => r.maxHr) = [] → (summaryRow records cum).maxHr = "")
    ∧ (∀ m : ℕ, (records.filterMap (fun r => r.maxHr)).max? = some m →
        (summaryRow records cum).maxHr = toString m) := by
  refine ⟨?_, ?_, ?_, ?_⟩
  · intro h
    simp only [summaryRow, h]
  · intro h
    obtain ⟨x, xs, hxs⟩ := List.exists_cons_of_ne_nil h
    simp only [summaryRow, hxs]
    rw [Nat.floor_div_nat, Nat.floor_natCast]
  · intro h
    simp only [summaryRow, h]
  · intro m hm
    cases hxs : records.filterMap (fun r => r.maxHr) with
    | nil => rw [hxs] at hm; simp [List.max?] at hm
    | cons x xs =>
      rw [hxs] at hm
      simp only [List.max?] at hm
      simp only [summaryRow, hxs]
      rw [Option.some_inj.mp hm]

/-- Witness for C8: laps with average heart rates 150 and 153 give the
truncated mean 151 (not the rounded 152), and a single present maximum
160 is the summary maximum. -/
theorem C8_summary_hr_witness :
    (summaryRow [⟨1, 300, 1, 80, some 150, some 160, 13, 300⟩,
        ⟨2, 60, 1, 10, some 153, none, 0, 360⟩] 360).avgHr = "151"
    ∧ (summaryRow [⟨1, 300, 1, 80, some 150, some 160, 13, 300⟩,
        ⟨2, 60, 1, 10, some 153, none, 0, 360⟩] 360).maxHr = "160" := by
  have h := C8_summary_hr
    [⟨1, 300, 1, 80, some 150, some 160, 13, 300⟩, ⟨2, 60, 1, 10, some 153, none, 0, 360⟩] 360
  refine ⟨(h.2.1 (by decide)).trans ?_, (h.2.2.2 160 (by decide)).trans (by decide)⟩
  rw [Nat.floor_div_nat, Nat.floor_natCast]
  decide

lemma pyMod_nonneg (q n : ℚ) (hn : 0 < n) : 0 ≤ pyMod q n := by
  have h1 : ((⌊q / n⌋ : ℤ) : ℚ) ≤ q / n := Int.floor_le _
  have h2 : n * ((⌊q / n⌋ : ℤ) : ℚ) ≤ n * (q / n) := mul_le_mul_of_nonneg_left h1 hn.le
  have h3 : n * (q / n) = q := by field_simp
  unfold pyMod
  linarith

/-- C10: for every positive pace, the rendered seconds component is the
floor of the fractional seconds value (Python truncation toward zero of
the nonnegative remainder), never a rounding up. -/
theorem C10_pace_truncation (s : ℚ) (h : 0 < s) :
    format_seconds_to_pace s = toString ⌊s / 60⌋ ++ ":" ++ zfill2 ⌊pyMod s 60⌋ := by
  have hmod : 0 ≤ pyMod s 60 := pyMod_nonneg s 60 (by norm_num)
  have hint : pyInt (pyMod s 60) = ⌊pyMod s 60⌋ := if_pos hmod
  simp only [format_seconds_to_pace, if_neg h.ne', hint]

/-- Witness for C10: a pace of 359.9 seconds per km renders as 5:59, not
6:00. -/
theorem C10_pace_truncation_witness :
    format_seconds_to_pace (3599/10) = "5:59"
    ∧ (format_seconds_to_pace (3599/10) == "6:00") = false := by
  have e1 : ⌊(3599/10 : ℚ) / 60⌋ = 5 := by norm_num
  have e2 : ⌊pyMod (3599/10 : ℚ) 60⌋ = 59 := by norm_num [pyMod]
  have h := (C10_pace_truncation (3599/10) (by norm_num)).trans
    (by rw [e1, e2])
  exact ⟨h, by rw [h]; decide⟩

/-- Counterexample for C3: for a lap of 300 s over 1 km, the emitted row
carries the average-pace string in `Best Pacemin/km` and
`Avg Moving Pacemin/km` and the lap-time string in `Moving Time` — none
of these three columns is the empty string as the claim states. -/
theorem C3_counterexample :
    (lapRow ⟨1, 300, 1, 80, some 150, some 160, 13, 300⟩).bestPace = "5:00"
    ∧ (lapRow ⟨1, 300, 1, 80, some 150, some 160, 13, 300⟩).movingTime = "5:00.0"
    ∧ (lapRow ⟨1, 300, 1, 80, some 150, some 160, 13, 300⟩).avgMovingPace = "5:00"
    ∧ (("5:00" : String) == "") = false ∧ (("5:00.0" : String) == "") = false := by
  have hpace : format_seconds_to_pace ((300 : ℚ) / 1) = "5:00" := by
    have e1 : ⌊((300 : ℚ) / 1) / 60⌋ = 5 := by norm_num
    have e2 : pyInt (pyMod ((300 : ℚ) / 1) 60) = 0 := by norm_num [pyInt, pyMod]
    have h0 : ¬((300 : ℚ) / 1 = 0) := by norm_num
    simp only [format_seconds_to_pace, if_neg h0, e1, e2]
    decide
  have htime : format_seconds_to_time (300 : ℚ) = "5:00.0" := by
    have e1 : ⌊(300 : ℚ) / 60⌋ = 5 := by norm_num
    have e2 : pyMod (300 : ℚ) 60 = 0 := by norm_num [pyMod]
    have e3 : roundHalfEven (10 * (0 : ℚ)) = 0 := by norm_num [roundHalfEven]
    simp only [format_seconds_to_time, e1, e2, fmt04_1, e3]
    decide
  have hif : (if (0 : ℚ) < (⟨1, 300, 1, 80, some 150, some 160, 13, 300⟩ : LapRecord).distanceKm
      then (⟨1, 300, 1, 80, some 150, some 160, 13, 300⟩ : LapRecord).totalTime
        / (⟨1, 300, 1, 80, some 150, some 160, 13, 300⟩ : LapRecord).distanceKm
      else 0) = (300 : ℚ) / 1 := by norm_num
  refine ⟨?_, ?_, ?_, by decide, by decide⟩
  · show format_seconds_to_pace _ = "5:00"
    rw [hif, hpace]
  · exact htime
  · show format_seconds_to_pace _ = "5:00"
    rw [hif, hpace]

/-- C3 amended: every schema column not derivable from a TCX lap is the
empty string except that `Best Pacemin/km` and `Avg Moving Pacemin/km`
carry the lap's average-pace string and `Moving Time` carries the lap's
elapsed-time string; all columns are structurally present in every row. -/
theorem C3_amended (r : LapRecord) :
    (lapRow r).avgRunCadence = "" ∧ (lapRow r).avgGroundContactTime = ""
    ∧ (lapRow r).avgPower = "" ∧ (lapRow r).avgWkg = ""
    ∧ (lapRow r).maxPower = "" ∧ (lapRow r).maxWkg = ""
    ∧ (lapRow r).avgStrideLength = "" ∧ (lapRow r).avgVerticalOscillation = ""
    ∧ (lapRow r).avgTemperature = ""
    ∧ (lapRow r).avgStepSpeedLoss = "" ∧ (lapRow r).avgStepSpeedLossPercent = ""
    ∧ (lapRow r).bestPace = (lapRow r).avgPace
    ∧ (lapRow r).movingTime = (lapRow r).time
    ∧ (lapRow r).avgMovingPace = (lapRow r).avgPace :=
  ⟨rfl, rfl, rfl, rfl, rfl, rfl, rfl, rfl, rfl, rfl, rfl, rfl, rfl, rfl⟩

/-- Counterexample for C4: a lap with positive distance (1 km) and zero
total time renders its pace as the empty string, not as the claimed
string of zero minutes and zero seconds. -/
theorem C4_counterexample :
    (0 : ℚ) < (⟨1, 0, 1, 0, none, none, 0, 0⟩ : LapRecord).distanceKm
    ∧ (⟨1, 0, 1, 0, none, none, 0, 0⟩ : LapRecord).totalTime = 0
    ∧ (lapRow ⟨1, 0, 1, 0, none, none, 0, 0⟩).avgPace = ""
    ∧ ((lapRow ⟨1, 0, 1, 0, none, none, 0, 0⟩).avgPace == "0:00") = false := by
  have hpace : (lapRow ⟨1, 0, 1, 0, none, none, 0, 0⟩).avgPace = "" := by
    have hif : (if (0 : ℚ) < (⟨1, 0, 1, 0, none, none, 0, 0⟩ : LapRecord).distanceKm
        then (⟨1, 0, 1, 0, none, none, 0, 0⟩ : LapRecord).totalTime
          / (⟨1, 0, 1, 0, none, none, 0, 0⟩ : LapRecord).distanceKm
        else 0) = (0 : ℚ) := by norm_num
    show format_seconds_to_pace _ = ""
    rw [hif]
    rfl
  exact ⟨by norm_num, rfl, hpace, by rw [hpace]; decide⟩

/-- C4 amended: a lap with zero distance renders the empty pace string,
and a lap with positive distance and zero total time also renders the
empty pace string (a zero pace value is indistinguishable from the
no-distance case). -/
theorem C4_amended (r : LapRecord) :
    (r.distanceKm = 0 → (lapRow r).avgPace = "")
    ∧ (0 < r.distanceKm → r.totalTime = 0 → (lapRow r).avgPace = "") := by
  constructor
  · intro h
    show format_seconds_to_pace _ = ""
    rw [if_neg (by rw [h]; exact lt_irrefl 0)]
    rfl
  · intro hd ht
    show format_seconds_to_pace _ = ""
    rw [if_pos hd, ht, zero_div]
    rfl

/-- Witness for C4 amended: both branches at concrete laps. -/
theorem C4_amended_witness :
    (lapRow ⟨1, 300, 0, 0, none, none, 0, 300⟩).avgPace = ""
    ∧ (lapRow ⟨1, 0, 1, 0, none, none, 0, 0⟩).avgPace = "" :=
  ⟨(C4_amended ⟨1, 300, 0, 0, none, none, 0, 300⟩).1 rfl,
   (C4_amended ⟨1, 0, 1, 0, none, none, 0, 0⟩).2 (by norm_num) rfl⟩

/-- C6: a well-formed document with zero laps fails with the distinct
no-laps-found outcome: the pipeline produces no rows, nothing is written,
and the outcome differs from the other failure modes and from any
success. -/
theorem C6_no_laps_is_failure :
    convertDoc (TcxDoc.parsed []) = Except.error ConvError.noLapsFound
    ∧ parse_tcx_to_csv (TcxDoc.parsed []) = none
    ∧ (ConvError.noLapsFound == ConvError.malformedInput) = false
    ∧ (ConvError.noLapsFound == ConvError.missingRequiredField) = false :=
  ⟨rfl, rfl, by decide, by decide⟩

/-- C1 at a failing input: a batch over one well-formed file with zero
laps.  The pipeline for that file fails with the no-laps error and
nothing is written, yet the batch loop still reports one converted file
and zero failures are visible in the counts, because `parse_tcx_to_csv`
catches every pipeline error internally and so the batch loop's own
error branch is unreachable. -/
theorem C1_failed_file_counted_converted :
    convertDoc (TcxDoc.parsed []) = Except.error ConvError.noLapsFound
    ∧ (batch_convert_tcx_files [("run1.tcx", TcxDoc.parsed [])] []).converted = 1
    ∧ (batch_convert_tcx_files [("run1.tcx", TcxDoc.parsed [])] []).writtenNames = []
    ∧ (batch_convert_tcx_files [("run1.tcx", TcxDoc.parsed [])] []).csv = []
    ∧ (batch_convert_tcx_files [("run1.tcx", TcxDoc.parsed [])] []).skipped = 0 := by
  refine ⟨rfl, ?_, ?_, ?_, ?_⟩ <;> decide

/-- Counterexample for C2: a single-file run whose input exists but whose
XML parse fails exits with code 0, not the claimed non-zero code (the
parse error is caught and printed inside `parse_tcx_to_csv`); no output
is written. -/
theorem C2_counterexample :
    convertDoc TcxDoc.malformed = Except.error ConvError.malformedInput
    ∧ runSingleFile (some TcxDoc.malformed) = ⟨0, none⟩
    ∧ (runSingleFile (some TcxDoc.malformed)).exitCode = 0 :=
  ⟨rfl, rfl, rfl⟩

/-- C2 amended: in single-file mode, a missing input path terminates the
run with exit code 1 and no output; a failing XML parse writes no output
file either, but the run terminates with exit code 0. -/
theorem C2_amended :
    runSingleFile none = ⟨1, none⟩
    ∧ (∀ doc : TcxDoc, convertDoc doc = Except.error ConvError.malformedInput →
        runSingleFile (some doc) = ⟨0, none⟩) := by
  refine ⟨rfl, fun doc h => ?_⟩
  simp [runSingleFile, parse_tcx_to_csv, h, Except.toOption]

/-- Witness for C2 amended: the malformed document. -/
theorem C2_amended_witness : runSingleFile (some TcxDoc.malformed) = ⟨0, none⟩ :=
  C2_amended.2 TcxDoc.malformed rfl

lemma fileExists_cons (fs : CsvFS) (k : String) (v : List OutputRow) (n : String)
    (h : fileExists fs n = true) : fileExists ((k, v) :: fs) n = true := by
  unfold fileExists at h ⊢
  have hl : List.lookup n ((k, v) :: fs)
      = match n == k with
        | true => some v
        | false => List.lookup n fs := rfl
  rw [hl]
  cases hkn : (n == k) with
  | false => exact h
  | true => rfl

lemma batchStep_skip (st : BatchState) (p : String × TcxDoc)
    (hex : fileExists st.csv (csvNameOf p.1) = true) :
    batchStep st p = { st with skipped := st.skipped + 1,
                               skippedNames := st.skippedNames ++ [p.1] } := by
  unfold batchStep
  rw [if_pos hex]

lemma batchStep_write (st : BatchState) (p : String × TcxDoc) (rows : List OutputRow)
    (hex : ¬ fileExists st.csv (csvNameOf p.1) = true)
    (hp : parse_tcx_to_csv p.2 = some rows) :
    batchStep st p = { st with csv := (csvNameOf p.1, rows) :: st.csv,
                               converted := st.converted + 1,
                               writtenNames := st.writtenNames ++ [p.1] } := by
  unfold batchStep
  rw [if_neg hex, hp]

lemma batchStep_fail (st : BatchState) (p : String × TcxDoc)
    (hex : ¬ fileExists st.csv (csvNameOf p.1) = true)
    (hp : parse_tcx_to_csv p.2 = none) :
    batchStep st p = { st with converted := st.converted + 1 } := by
  unfold batchStep
  rw [if_neg hex, hp]

lemma batchStep_exists_mono (st : BatchState) (p : String × TcxDoc) (n : String)
    (h : fileExists st.csv n = true) : fileExists (batchStep st p).csv n = true := by
  by_cases hex : fileExists st.csv (csvNameOf p.1) = true
  · rw [batchStep_skip st p hex]
    exact h
  · cases hp : parse_tcx_to_csv p.2 with
    | none =>
      rw [batchStep_fail st p hex hp]
      exact h
    | some rows =>
      rw [batchStep_write st p rows hex hp]
      exact fileExists_cons st.csv (csvNameOf p.1) rows n h

lemma foldl_exists_mono (files : List (String × TcxDoc)) :
    ∀ (st : BatchState) (n : String), fileExists st.csv n = true →
      fileExists ((files.foldl batchStep st).csv) n = true := by
  induction files with
  | nil => intro st n h; exact h
  | cons f rest ih =>
    intro st n h
    exact ih (batchStep st f) n (batchStep_exists_mono st f n h)

lemma batchStep_outcome (st : BatchState) (p : String × TcxDoc) :
    fileExists (batchStep st p).csv (csvNameOf p.1) = true ∨ parse_tcx_to_csv p.2 = none := by
  by_cases hex : fileExists st.csv (csvNameOf p.1) = true
  · left
    rw [batchStep_skip st p hex]
    exact hex
  · cases hp : parse_tcx_to_csv p.2 with
    | none => right; rfl
    | some rows =>
      left
      rw [batchStep_write st p rows hex hp]
      show fileExists ((csvNameOf p.1, rows) :: st.csv) (csvNameOf p.1) = true
      unfold fileExists
      have hl : List.lookup (csvNameOf p.1) ((csvNameOf p.1, rows) :: st.csv)
          = match csvNameOf p.1 == csvNameOf p.1 with
            | true => some rows
            | false => List.lookup (csvNameOf p.1) st.csv := rfl
      rw [hl, beq_self_eq_true]
      rfl

lemma foldl_outcome (files : List (String × TcxDoc)) :
    ∀ (st : BatchState) (p : String × TcxDoc), p ∈ files →
      fileExists ((files.foldl batchStep st).csv) (csvNameOf p.1) = true
        ∨ parse_tcx_to_csv p.2 = none := by
  induction files with
  | nil => intro st p hp; exact absurd hp (List.not_mem_nil p)
  | cons f rest ih =>
    intro st p hp
    rcases List.mem_cons.mp hp with h | h
    · subst h
      rcases batchStep_outcome st p with h1 | h1
      · left
        rw [List.foldl_cons]
        exact foldl_exists_mono rest (batchStep st p) _ h1
      · right; exact h1
    · rw [List.foldl_cons]
      exact ih (batchStep st f) p h

lemma batchStep_skipped_mono (st : BatchState) (p : String × TcxDoc) (x : String)
    (h : x ∈ st.skippedNames) : x ∈ (batchStep st p).skippedNames := by
  by_cases hex : fileExists st.csv (csvNameOf p.1) = true
  · rw [batchStep_skip st p hex]
    exact List.mem_append.mpr (Or.inl h)
  · cases hp : parse_tcx_to_csv p.2 with
    | none => rw [batchStep_fail st p hex hp]; exact h
    | some rows => rw [batchStep_write st p rows hex hp]; exact h

lemma foldl_skipped_mono (files : List (String × TcxDoc)) :
    ∀ (st : BatchState) (x : String), x ∈ st.skippedNames →
      x ∈ (files.foldl batchStep st).skippedNames := by
  induction files with
  | nil => intro st x h; exact h
  | cons f rest ih =>
    intro st x h
    exact ih (batchStep st f) x (batchStep_skipped_mono st f x h)

lemma foldl_noop (files : List (String × TcxDoc)) :
    ∀ st : BatchState,
      (∀ p ∈ files, fileExists st.csv (csvNameOf p.1) = true ∨ parse_tcx_to_csv p.2 = none) →
      (files.foldl batchStep st).csv = st.csv
      ∧ (files.foldl batchStep st).writtenNames = st.writtenNames
      ∧ ∀ p ∈ files, fileExists st.csv (csvNameOf p.1) = true →
          p.1 ∈ (files.foldl batchStep st).skippedNames := by
  induction files with
  | nil =>
    intro st _
    exact ⟨rfl, rfl, fun p hp => absurd hp (List.not_mem_nil p)⟩
  | cons f rest ih =>
    intro st h
    by_cases hex : fileExists st.csv (csvNameOf f.1) = true
    · have hstep : batchStep st f
          = { st with skipped := st.skipped + 1,
                      skippedNames := st.skippedNames ++ [f.1] } :=
        batchStep_skip st f hex
      have hcsv : (batchStep st f).csv = st.csv := by rw [hstep]
      have hwrit : (batchStep st f).writtenNames = st.writtenNames := by rw [hstep]
      have hrest := ih (batchStep st f)
        (fun p hp => by rw [hcsv]; exact h p (List.mem_cons_of_mem f hp))
      refine ⟨?_, ?_, ?_⟩
      · rw [List.foldl_cons, hrest.1, hcsv]
      · rw [List.foldl_cons, hrest.2.1, hwrit]
      · intro p hp hpe
        rcases List.mem_cons.mp hp with h1 | h1
        · subst h1
          rw [List.foldl_cons]
          apply foldl_skipped_mono
          rw [hstep]
          simp
        · rw [List.foldl_cons]
          exact hrest.2.2 p h1 (by rw [hcsv]; exact hpe)
    · have hnone : parse_tcx_to_csv f.2 = none := by
        rcases h f (List.mem_cons_self f rest) with h1 | h1
        · exact absurd h1 hex
        · exact h1
      have hstep : batchStep st f = { st with converted := st.converted + 1 } :=
        batchStep_fail st f hex hnone
      have hcsv : (batchStep st f).csv = st.csv := by rw [hstep]
      have hwrit : (batchStep st f).writtenNames = st.writtenNames := by rw [hstep]
      have hrest := ih (batchStep st f)
        (fun p hp => by rw [hcsv]; exact h p (List.mem_cons_of_mem f hp))
      refine ⟨?_, ?_, ?_⟩
      · rw [List.foldl_cons, hrest.1, hcsv]
      · rw [List.foldl_cons, hrest.2.1, hwrit]
      · intro p hp hpe
        rcases List.mem_cons.mp hp with h1 | h1
        · subst h1; exact absurd hpe hex
        · rw [List.foldl_cons]
          exact hrest.2.2 p h1 (by rw [hcsv]; exact hpe)

/-- C9: a second batch run over the same input listing, starting from the
output directory the first run produced, changes no output file, writes
nothing new, and classifies every eligible file whose output path exists
as skipped. -/
theorem C9_batch_idempotent (tcx : List (String × TcxDoc)) (csv0 : CsvFS) :
    (batch_convert_tcx_files tcx (batch_convert_tcx_files tcx csv0).csv).csv
      = (batch_convert_tcx_files tcx csv0).csv
    ∧ (batch_convert_tcx_files tcx (batch_convert_tcx_files tcx csv0).csv).writtenNames = []
    ∧ ∀ p ∈ eligibleFiles tcx,
        fileExists (batch_convert_tcx_files tcx csv0).csv (csvNameOf p.1) = true →
          p.1 ∈ (batch_convert_tcx_files tcx (batch_convert_tcx_files tcx csv0).csv).skippedNames := by
  have h1 : ∀ p ∈ eligibleFiles tcx,
      fileExists (batch_convert_tcx_files tcx csv0).csv (csvNameOf p.1) = true
        ∨ parse_tcx_to_csv p.2 = none :=
    fun p hp => foldl_outcome (eligibleFiles tcx) ⟨csv0, 0, 0, [], []⟩ p hp
  have h2 := foldl_noop (eligibleFiles tcx)
    ⟨(batch_convert_tcx_files tcx csv0).csv, 0, 0, [], []⟩ h1
  exact ⟨h2.1, h2.2.1, h2.2.2⟩

/-- Witness for C9: one input file whose output already exists is skipped
by both runs and nothing is ever written. -/
theorem C9_batch_idempotent_witness :
    (batch_convert_tcx_files [("a.tcx", TcxDoc.parsed [])]
        ((batch_convert_tcx_files [("a.tcx", TcxDoc.parsed [])] [("a.csv", [])]).csv)).writtenNames
      = []
    ∧ "a.tcx" ∈ (batch_convert_tcx_files [("a.tcx", TcxDoc.parsed [])]
        ((batch_convert_tcx_files [("a.tcx", TcxDoc.parsed [])] [("a.csv", [])]).csv)).skippedNames :=
  ⟨(C9_batch_idempotent [("a.tcx", TcxDoc.parsed [])] [("a.csv", [])]).2.1,
   (C9_batch_idempotent [("a.tcx", TcxDoc.parsed [])] [("a.csv", [])]).2.2
     ("a.tcx", TcxDoc.parsed []) (by decide) (by decide)⟩

end TcxToCsv
